import Mathlib

/-!
Verification development for the `ai-sdk-claude-code-oauth` provider.

Part 1 embeds the credential manager of `src/credentials.ts`: the credential
record, the module-level in-memory cache, `readCredentials`, `isTokenExpired`
and `refreshToken`.  The ambient effects of the TypeScript code (the clock, the
backing credential file, the outcome of the token-endpoint HTTP call, the
outcome of the persist-to-disk write) are passed explicitly as parameters, and
the module-level mutable variables `cachedCredentials` / `lastReadTime` are
threaded as an explicit state value.

Part 2 embeds the server-sent-event stream decoder of
`src/provider.ts` (`createStreamTransformer`): byte chunks are modelled as
already-decoded character lists, the partial-line buffer and the open tool-call
accumulator are explicit state, and the runtime's `JSON.parse` is a parameter
`parse : List Char → Option Json` (it is library code, not code of this
repository); the dispatch on the parsed event is translated from the source.
-/

/-- The `claudeAiOauth` object of a credential record
(`src/credentials.ts` lines 10-20). -/
structure ClaudeAiOauth where
  accessToken : String
  refreshToken : String
  /-- epoch milliseconds -/
  expiresAt : Nat
  scopes : List String
  subscriptionType : Option String
  rateLimitTier : Option String
deriving DecidableEq, Repr

/-- The credential record `ClaudeCodeCredentials` (`src/credentials.ts` lines 10-20). -/
structure ClaudeCodeCredentials where
  claudeAiOauth : ClaudeAiOauth
  organizationUuid : String
deriving DecidableEq, Repr

/-- `CACHE_TTL_MS` (`src/credentials.ts` line 28). -/
def CACHE_TTL_MS : Nat := 30000

/-- `TOKEN_REFRESH_BUFFER_MS` (`src/credentials.ts` line 23). -/
def TOKEN_REFRESH_BUFFER_MS : Nat := 5 * 60 * 1000

/-- The module-level mutable state of `src/credentials.ts`
(lines 26-27): `cachedCredentials` and `lastReadTime`. -/
structure CredState where
  cachedCredentials : Option ClaudeCodeCredentials
  lastReadTime : Nat
deriving DecidableEq, Repr

/-- Initial module state: `cachedCredentials = null`, `lastReadTime = 0`. -/
def initCredState : CredState := ⟨none, 0⟩

/-- The observable condition of the backing credential file at
`CREDENTIALS_PATH`: missing (`existsSync` false), unreadable or unparseable
(`readFileSync`/`JSON.parse` throws), or present and parsing to a record. -/
inductive DiskState where
  | missing : DiskState
  | corrupt : DiskState
  | good : ClaudeCodeCredentials → DiskState
deriving DecidableEq, Repr

/-- The errors `readCredentials` can throw (`src/credentials.ts`
lines 40-45 and 52-54). -/
inductive CredError where
  | notFound : CredError
  | readFailed : CredError
deriving DecidableEq, Repr

/-- The no-cache path of `readCredentials` (`src/credentials.ts` lines 40-54):
check existence, read and parse, cache on success.  The third component of the
result records whether the backing store was touched (`existsSync` /
`readFileSync`); on this path it always is. -/
def readFresh (now : Nat) (disk : DiskState) (s : CredState) :
    Except CredError ClaudeCodeCredentials × CredState × Bool :=
  match disk with
  | .missing => (.error .notFound, s, true)
  | .corrupt => (.error .readFailed, s, true)
  | .good c => (.ok c, ⟨some c, now⟩, true)

/-- `readCredentials` (`src/credentials.ts` lines 33-55).  The cache hit
condition is `cachedCredentials && (now - lastReadTime) < CACHE_TTL_MS`;
the subtraction is over the integers, as in JavaScript. -/
def readCredentials (s : CredState) (now : Nat) (disk : DiskState) :
    Except CredError ClaudeCodeCredentials × CredState × Bool :=
  match s.cachedCredentials with
  | some c =>
      if (now : Int) - (s.lastReadTime : Int) < (CACHE_TTL_MS : Int) then
        (.ok c, s, false)
      else
        readFresh now disk s
  | none => readFresh now disk s

/-- `isTokenExpired` (`src/credentials.ts` lines 60-63):
`Date.now() >= expiresAt - TOKEN_REFRESH_BUFFER_MS`, over the integers. -/
def isTokenExpired (now : Nat) (credentials : ClaudeCodeCredentials) : Bool :=
  (credentials.claudeAiOauth.expiresAt : Int) - (TOKEN_REFRESH_BUFFER_MS : Int) ≤ (now : Int)

/-- Outcome of the token-endpoint HTTP POST seen by `refreshToken`:
a non-ok response with its status and body text, or an ok response whose JSON
body carries `access_token`, optionally `refresh_token`, and `expires_in`
(seconds).  An absent `refresh_token` field is `none`. -/
inductive TokenResp where
  | failure : Nat → String → TokenResp
  | success : String → Option String → Nat → TokenResp
deriving DecidableEq, Repr

/-- The `newCredentials` record built by `refreshToken` on a 2xx response
(`src/credentials.ts` lines 95-103): spread of the old record with
`accessToken`, `refreshToken` (JavaScript `data.refresh_token || refreshToken`,
so an absent or empty response token keeps the old one) and
`expiresAt = Date.now() + expires_in * 1000` replaced. -/
def refreshedRecord (credentials : ClaudeCodeCredentials) (access_token : String)
    (refresh_token : Option String) (expires_in : Nat) (now : Nat) :
    ClaudeCodeCredentials :=
  { credentials with
    claudeAiOauth :=
      { credentials.claudeAiOauth with
        accessToken := access_token
        refreshToken :=
          match refresh_token with
          | some r => if r = "" then credentials.claudeAiOauth.refreshToken else r
          | none => credentials.claudeAiOauth.refreshToken
        expiresAt := now + expires_in * 1000 } }

/-- `refreshToken` (`src/credentials.ts` lines 68-114).  `persistOk` is the
outcome of the `writeFileSync` persist; the in-memory cache assignment
`cachedCredentials = newCredentials` sits after the write inside the same
`try`, so it runs only when the persist succeeded.  A non-ok response throws
with the status and body and leaves the state untouched. -/
def refreshToken (credentials : ClaudeCodeCredentials) (resp : TokenResp)
    (now : Nat) (persistOk : Bool) (s : CredState) :
    Except (Nat × String) ClaudeCodeCredentials × CredState :=
  match resp with
  | .failure status body => (.error (status, body), s)
  | .success access_token refresh_token expires_in =>
      let newCredentials := refreshedRecord credentials access_token refresh_token expires_in now
      if persistOk then
        (.ok newCredentials, { s with cachedCredentials := some newCredentials })
      else
        (.ok newCredentials, s)

/-! ### Part 2: the stream decoder of `src/provider.ts` (`createStreamTransformer`) -/

/-- JSON values, the shape produced by the runtime's `JSON.parse`. -/
inductive Json where
  | null : Json
  | bool : Bool → Json
  | num : Nat → Json
  | str : String → Json
  | arr : List Json → Json
  | obj : List (String × Json) → Json

/-- First binding of a key in a JSON object's field list (the examples in this
development use objects with pairwise distinct keys, where first and last
binding agree). -/
def lookupField : List (String × Json) → String → Option Json
  | [], _ => none
  | (k', v) :: rest, k => if k' = k then some v else lookupField rest k

/-- JavaScript property access `j.k` on a parsed JSON value: a field of an
object, `undefined` (here `none`) otherwise. -/
def Json.getField : Json → String → Option Json
  | .obj fs, k => lookupField fs k
  | _, _ => none

/-- Optional-chaining property access `o?.k`. -/
def jfield : Option Json → String → Option Json
  | some j, k => j.getField k
  | none, _ => none

/-- The string value of an optionally present JSON value, when it is one. -/
def jstr : Option Json → Option String
  | some (.str s) => some s
  | _ => none

/-- The numeric value of an optionally present JSON value, when it is one. -/
def jnum : Option Json → Option Nat
  | some (.num n) => some n
  | _ => none

/-- `LanguageModelV1FinishReason` values the decoder produces
(`src/provider.ts` lines 332-339). -/
inductive FinishReason where
  | stop : FinishReason
  | toolCalls : FinishReason
  | length : FinishReason
  | other : FinishReason
deriving DecidableEq, Repr

/-- Stream parts enqueued by the decoder (`src/provider.ts` lines 309-348):
`text-delta`, `tool-call` and `finish` with its usage counts. -/
inductive StreamPart where
  | textDelta : String → StreamPart
  | toolCall : (id : String) → (name : String) → (args : String) → StreamPart
  | finish : FinishReason → (promptTokens : Nat) → (completionTokens : Nat) → StreamPart
deriving DecidableEq, Repr

/-- The closure state of `createStreamTransformer` other than the partial-line
buffer (`src/provider.ts` lines 272-276). -/
structure DecCore where
  inputTokens : Nat
  outputTokens : Nat
  currentToolCallId : String
  currentToolCallName : String
  currentToolCallArgs : String
deriving DecidableEq, Repr

/-- Initial decoder state (`src/provider.ts` lines 272-276). -/
def initCore : DecCore := ⟨0, 0, "", "", ""⟩

/-- The `delta.stop_reason` to finish-reason mapping of `src/provider.ts`
lines 332-339; an absent or unrecognised stop reason maps to `other`. -/
def mapStopReason : Option String → FinishReason
  | some "end_turn" => .stop
  | some "tool_use" => .toolCalls
  | some "max_tokens" => .length
  | _ => .other

/-- Dispatch on one parsed event (`src/provider.ts` lines 299-349).  The
source's `else if` chain on `event.type` is written as a match on the string;
JavaScript's `undefined` for an absent string field is modelled as `""` where
the source stores it (`currentToolCallId`/`Name`, delta text), matching its
truthiness use. -/
def processEvent (s : DecCore) (j : Json) : DecCore × List StreamPart :=
  if jstr (j.getField "type") = some "message_start" then
    ({ s with inputTokens :=
        (jnum (jfield (jfield (j.getField "message") "usage") "input_tokens")).getD 0 }, [])
  else if jstr (j.getField "type") = some "content_block_start" then
    if jstr (jfield (j.getField "content_block") "type") = some "tool_use" then
      ({ s with
          currentToolCallId := (jstr (jfield (j.getField "content_block") "id")).getD ""
          currentToolCallName := (jstr (jfield (j.getField "content_block") "name")).getD ""
          currentToolCallArgs := "" }, [])
    else (s, [])
  else if jstr (j.getField "type") = some "content_block_delta" then
    if jstr (jfield (j.getField "delta") "type") = some "text_delta" then
      (s, [.textDelta ((jstr (jfield (j.getField "delta") "text")).getD "")])
    else if jstr (jfield (j.getField "delta") "type") = some "input_json_delta" then
      ({ s with currentToolCallArgs :=
          s.currentToolCallArgs ++ (jstr (jfield (j.getField "delta") "partial_json")).getD "" }, [])
    else (s, [])
  else if jstr (j.getField "type") = some "content_block_stop" then
    if s.currentToolCallId ≠ "" then
      (⟨s.inputTokens, s.outputTokens, "", "", ""⟩,
       [.toolCall s.currentToolCallId s.currentToolCallName s.currentToolCallArgs])
    else (s, [])
  else if jstr (j.getField "type") = some "message_delta" then
    ({ s with outputTokens := (jnum (jfield (j.getField "usage") "output_tokens")).getD s.outputTokens },
     [.finish (mapStopReason (jstr (jfield (j.getField "delta") "stop_reason"))) s.inputTokens
        ((jnum (jfield (j.getField "usage") "output_tokens")).getD s.outputTokens)])
  else (s, [])

/-- Run the event dispatch over a list of already-parsed events, concatenating
the enqueued stream parts in order. -/
def runEvents (s : DecCore) : List Json → DecCore × List StreamPart
  | [] => (s, [])
  | j :: js =>
      ((runEvents (processEvent s j).1 js).1,
       (processEvent s j).2 ++ (runEvents (processEvent s j).1 js).2)

/-- `line.startsWith('data: ')` (`src/provider.ts` line 292). -/
def startsWithData : List Char → Bool
  | 'd' :: 'a' :: 't' :: 'a' :: ':' :: ' ' :: _ => true
  | _ => false

/-- The literal payload `[DONE]` (`src/provider.ts` line 294). -/
def doneLit : List Char := ['[', 'D', 'O', 'N', 'E', ']']

/-- Per-line processing (`src/provider.ts` lines 291-352): skip lines without
the `data: ` marker, strip the 6-character marker, skip `[DONE]`, skip
payloads `parse` rejects (the source's `try { JSON.parse } catch` that ignores
parse errors), and dispatch parsed events. -/
def processLine (parse : List Char → Option Json) (s : DecCore) (line : List Char) :
    DecCore × List StreamPart :=
  if startsWithData line then
    let d := line.drop 6
    if d = doneLit then (s, [])
    else
      match parse d with
      | none => (s, [])
      | some j => processEvent s j
  else (s, [])

/-- Process a list of complete lines in order. -/
def runLines (parse : List Char → Option Json) (s : DecCore) :
    List (List Char) → DecCore × List StreamPart
  | [] => (s, [])
  | l :: ls =>
      ((runLines parse (processLine parse s l).1 ls).1,
       (processLine parse s l).2 ++ (runLines parse (processLine parse s l).1 ls).2)

/-- `buffer.split('\n')` (`src/provider.ts` line 288): JavaScript string
split at every newline; the result is never empty. -/
def splitNl : List Char → List (List Char)
  | [] => [[]]
  | c :: cs =>
      let r := splitNl cs
      if c = '\n' then [] :: r
      else (c :: r.headD []) :: r.tail

/-- Full decoder state: the dispatch state plus the partial-line buffer
(`src/provider.ts` line 271). -/
structure DecFull where
  core : DecCore
  buffer : List Char
deriving DecidableEq, Repr

/-- Initial full decoder state: empty buffer. -/
def initFull : DecFull := ⟨initCore, []⟩

/-- One iteration of the read loop on a decoded chunk (`src/provider.ts`
lines 287-353): append the chunk to the buffer, split on newlines, keep the
final fragment (`lines.pop() ?? ''`) as the new buffer, process the complete
lines. -/
def processChunk (parse : List Char → Option Json) (s : DecFull) (chunk : List Char) :
    DecFull × List StreamPart :=
  (⟨(runLines parse s.core (splitNl (s.buffer ++ chunk)).dropLast).1,
    (splitNl (s.buffer ++ chunk)).getLastD []⟩,
   (runLines parse s.core (splitNl (s.buffer ++ chunk)).dropLast).2)

/-- The read loop over all chunks of the byte stream. -/
def runChunks (parse : List Char → Option Json) (s : DecFull) :
    List (List Char) → DecFull × List StreamPart
  | [] => (s, [])
  | c :: cs =>
      ((runChunks parse (processChunk parse s c).1 cs).1,
       (processChunk parse s c).2 ++ (runChunks parse (processChunk parse s c).1 cs).2)

/-- The stream transformer (`src/provider.ts` lines 269-361) as a function
from the decoded chunk sequence to the emitted stream-part sequence; at stream
end (`done`) the loop exits, discarding the partial-line buffer, and the
output is closed. -/
def streamTransformer (parse : List Char → Option Json) (chunks : List (List Char)) :
    List StreamPart :=
  (runChunks parse initFull chunks).2

/-! ### Concrete example values -/

/-- A concrete credential record for examples. -/
def demoCreds : ClaudeCodeCredentials :=
  ⟨⟨"acc0", "ref0", 500, ["user:inference", "user:profile"], some "pro", none⟩, "org-123"⟩

/-- A concrete credential record whose token expires far in the future. -/
def farCreds : ClaudeCodeCredentials :=
  ⟨⟨"acc0", "ref0", 2000000000000, ["user:inference"], none, none⟩, "org-123"⟩

/-- Parsed `message_start` frame with `input_tokens = 10`. -/
def fMsgStart10 : Json :=
  .obj [("type", .str "message_start"),
        ("message", .obj [("usage", .obj [("input_tokens", .num 10)])])]

/-- Parsed `content_block_delta` text frame carrying `"He"`. -/
def fTextHe : Json :=
  .obj [("type", .str "content_block_delta"),
        ("delta", .obj [("type", .str "text_delta"), ("text", .str "He")])]

/-- Parsed `content_block_delta` text frame carrying `"llo"`. -/
def fTextLlo : Json :=
  .obj [("type", .str "content_block_delta"),
        ("delta", .obj [("type", .str "text_delta"), ("text", .str "llo")])]

/-- Parsed `message_delta` frame with `stop_reason = end_turn`,
`output_tokens = 3`. -/
def fMsgDelta3 : Json :=
  .obj [("type", .str "message_delta"),
        ("delta", .obj [("stop_reason", .str "end_turn")]),
        ("usage", .obj [("output_tokens", .num 3)])]

/-- Parsed `content_block_start` frame opening tool use `t1`/`weather`. -/
def fToolStart : Json :=
  .obj [("type", .str "content_block_start"),
        ("content_block", .obj [("type", .str "tool_use"), ("id", .str "t1"),
                                ("name", .str "weather")])]

/-- Parsed `content_block_delta` frame with `partial_json = '{"loc'`. -/
def fToolArgA : Json :=
  .obj [("type", .str "content_block_delta"),
        ("delta", .obj [("type", .str "input_json_delta"),
                        ("partial_json", .str "\x7b\"loc")])]

/-- Parsed `content_block_delta` frame with `partial_json = '":"NYC"}'`. -/
def fToolArgB : Json :=
  .obj [("type", .str "content_block_delta"),
        ("delta", .obj [("type", .str "input_json_delta"),
                        ("partial_json", .str "\":\"NYC\"\x7d")])]

/-- Parsed `content_block_stop` frame. -/
def fBlockStop : Json :=
  .obj [("type", .str "content_block_stop")]

/-- Wire payload whose `JSON.parse` value is `fTextHe`. -/
def pTextHe : List Char :=
  "\x7b\"type\":\"content_block_delta\",\"delta\":\x7b\"type\":\"text_delta\",\"text\":\"He\"\x7d\x7d".toList

/-- Wire payload whose `JSON.parse` value is `fMsgDelta3`. -/
def pMsgDelta : List Char :=
  "\x7b\"type\":\"message_delta\",\"delta\":\x7b\"stop_reason\":\"end_turn\"\x7d,\"usage\":\x7b\"output_tokens\":3\x7d\x7d".toList

/-- A concrete instance of the `parse` parameter for the examples: the value
`JSON.parse` produces on the two wire payloads used here, `none` on every
other string (in particular on `not-json`). -/
def parseDemo (l : List Char) : Option Json :=
  if l = pTextHe then some fTextHe
  else if l = pMsgDelta then some fMsgDelta3
  else none

/-- The six-character `data: ` marker. -/
def dataMarker : List Char := "data: ".toList

/-! ### Measurement helpers for the theorems -/

/-- Whether a stream part is a `finish` event. -/
def isFinishPart : StreamPart → Bool
  | .finish _ _ _ => true
  | _ => false

/-- Whether a stream part is a `tool-call` event. -/
def isToolCallPart : StreamPart → Bool
  | .toolCall _ _ _ => true
  | _ => false

/-- Number of `finish` events in an emitted sequence. -/
def countFinish (ps : List StreamPart) : Nat := ps.countP isFinishPart

/-- Whether a complete line makes the decoder emit a `finish` event: it must
carry the `data: ` marker, not be `[DONE]`, parse, and the parsed event's
`type` must be `message_delta` (that branch of the dispatch enqueues `finish`
unconditionally). -/
def lineEmitsFinish (parse : List Char → Option Json) (line : List Char) : Bool :=
  if startsWithData line then
    if line.drop 6 = doneLit then false
    else
      match parse (line.drop 6) with
      | none => false
      | some j => decide (jstr (j.getField "type") = some "message_delta")
  else false

/-- The complete (newline-terminated) lines the read loop extracts from a chunk
sequence, starting from a given partial-line buffer. -/
def completeLinesFrom (buf : List Char) : List (List Char) → List (List Char)
  | [] => []
  | c :: cs =>
      (splitNl (buf ++ c)).dropLast ++
        completeLinesFrom ((splitNl (buf ++ c)).getLastD []) cs

/-! ### Helper lemmas -/

theorem runEvents_append (s : DecCore) (a b : List Json) :
    runEvents s (a ++ b) =
      ((runEvents (runEvents s a).1 b).1,
       (runEvents s a).2 ++ (runEvents (runEvents s a).1 b).2) := by
  induction a generalizing s with
  | nil => simp [runEvents]
  | cons j js ih => simp [runEvents, ih, List.append_assoc]

theorem runLines_append (parse : List Char → Option Json) (s : DecCore)
    (a b : List (List Char)) :
    runLines parse s (a ++ b) =
      ((runLines parse (runLines parse s a).1 b).1,
       (runLines parse s a).2 ++ (runLines parse (runLines parse s a).1 b).2) := by
  induction a generalizing s with
  | nil => simp [runLines]
  | cons l ls ih => simp [runLines, ih, List.append_assoc]

theorem runChunks_append (parse : List Char → Option Json) (s : DecFull)
    (a b : List (List Char)) :
    runChunks parse s (a ++ b) =
      ((runChunks parse (runChunks parse s a).1 b).1,
       (runChunks parse s a).2 ++ (runChunks parse (runChunks parse s a).1 b).2) := by
  induction a generalizing s with
  | nil => simp [runChunks]
  | cons c cs ih => simp [runChunks, ih, List.append_assoc]

theorem startsWithData_dataMarker (payload : List Char) :
    startsWithData (dataMarker ++ payload) = true := rfl

theorem drop_dataMarker (payload : List Char) :
    (dataMarker ++ payload).drop 6 = payload := rfl

/-- A `data: ` line whose payload the parser rejects is a no-op for the
decoder. -/
theorem processLine_parse_none (parse : List Char → Option Json) (s : DecCore)
    (payload : List Char) (h : parse payload = none) :
    processLine parse s (dataMarker ++ payload) = (s, []) := by
  unfold processLine
  rw [startsWithData_dataMarker, drop_dataMarker]
  simp only [if_true]
  by_cases hd : payload = doneLit
  · simp [hd]
  · simp [hd, h]

theorem splitNl_ne_nil (l : List Char) : splitNl l ≠ [] := by
  cases l with
  | nil => simp [splitNl]
  | cons c cs =>
      unfold splitNl
      by_cases h : c = '\n' <;> simp [h]

/-- Splitting a newline-free string yields just that string. -/
theorem splitNl_of_not_mem (l : List Char) (h : '\n' ∉ l) : splitNl l = [l] := by
  induction l with
  | nil => rfl
  | cons c cs ih =>
      have hc : c ≠ '\n' := fun hc => h (hc ▸ List.mem_cons_self c cs)
      have hcs : '\n' ∉ cs := fun hm => h (List.mem_cons_of_mem c hm)
      unfold splitNl
      simp [hc, ih hcs]

/-- Every piece produced by the split is newline-free. -/
theorem splitNl_mem_not_nl (l : List Char) : ∀ x ∈ splitNl l, '\n' ∉ x := by
  induction l with
  | nil =>
      intro x hx
      simp only [splitNl, List.mem_singleton] at hx
      simp [hx]
  | cons c cs ih =>
      intro x hx
      unfold splitNl at hx
      by_cases hc : c = '\n'
      · simp only [hc, if_true, List.mem_cons] at hx
        rcases hx with hx | hx
        · simp [hx]
        · exact ih x hx
      · simp only [hc, if_false, List.mem_cons] at hx
        rcases hx with hx | hx
        · subst hx
          intro hmem
          rcases List.mem_cons.mp hmem with h | h
          · exact hc h.symm
          · rcases hr : splitNl cs with _ | ⟨y, r'⟩
            · exact absurd hr (splitNl_ne_nil cs)
            · rw [hr] at h
              simp only [List.headD_cons] at h
              exact ih y (by rw [hr]; exact List.mem_cons_self y r') h
        · exact ih x (List.mem_of_mem_tail hx)

/-- The fragment retained in the buffer after a split never holds a newline. -/
theorem splitNl_getLastD_not_mem (l : List Char) : '\n' ∉ (splitNl l).getLastD [] := by
  have hne := splitNl_ne_nil l
  have h : (splitNl l).getLastD [] = (splitNl l).getLast hne := by
    rw [List.getLastD_eq_getLast?, List.getLast?_eq_getLast_of_ne_nil hne]
    rfl
  rw [h]
  exact splitNl_mem_not_nl l _ (List.getLast_mem hne)

/-- A chunk that completes no line only grows the buffer and emits nothing. -/
theorem processChunk_no_nl (parse : List Char → Option Json) (s : DecFull)
    (c : List Char) (hb : '\n' ∉ s.buffer) (hc : '\n' ∉ c) :
    processChunk parse s c = (⟨s.core, s.buffer ++ c⟩, []) := by
  have hbc : '\n' ∉ s.buffer ++ c := by
    simp [List.mem_append, hb, hc]
  unfold processChunk
  rw [splitNl_of_not_mem _ hbc]
  simp [runLines]

/-- The partial-line buffer maintained by the read loop never holds a
newline. -/
theorem runChunks_buffer_not_nl (parse : List Char → Option Json)
    (cs : List (List Char)) : ∀ s : DecFull, '\n' ∉ s.buffer →
    '\n' ∉ (runChunks parse s cs).1.buffer := by
  induction cs with
  | nil => intro s hb; simpa [runChunks] using hb
  | cons c cs ih =>
      intro s hb
      simp only [runChunks]
      apply ih
      simpa [processChunk] using splitNl_getLastD_not_mem (s.buffer ++ c)

theorem countFinish_append (a b : List StreamPart) :
    countFinish (a ++ b) = countFinish a + countFinish b := by
  simp [countFinish, List.countP_append]

/-- The dispatch enqueues a `finish` exactly when the event's `type` is
`message_delta`. -/
theorem countFinish_processEvent (s : DecCore) (j : Json) :
    countFinish (processEvent s j).2 =
      if jstr (j.getField "type") = some "message_delta" then 1 else 0 := by
  unfold processEvent
  split_ifs with h1 h2 h3 h4 h5 h6 h7 h8 h9 <;>
    simp_all [countFinish, List.countP_cons, isFinishPart]

/-- Per-line version of the `finish` count. -/
theorem countFinish_processLine (parse : List Char → Option Json) (s : DecCore)
    (line : List Char) :
    countFinish (processLine parse s line).2 =
      if lineEmitsFinish parse line then 1 else 0 := by
  unfold processLine lineEmitsFinish
  by_cases h1 : startsWithData line
  · simp only [h1, if_true]
    by_cases h2 : line.drop 6 = doneLit
    · simp [h2, countFinish]
    · simp only [h2, if_false]
      rcases hp : parse (line.drop 6) with _ | j
      · simp [countFinish]
      · simp [countFinish_processEvent]
  · simp [h1, countFinish]

/-- The `finish` count over a line sequence. -/
theorem countFinish_runLines (parse : List Char → Option Json)
    (ls : List (List Char)) : ∀ s : DecCore,
    countFinish (runLines parse s ls).2 = ls.countP (lineEmitsFinish parse) := by
  induction ls with
  | nil => intro s; simp [runLines, countFinish]
  | cons l ls ih =>
      intro s
      simp only [runLines, List.countP_cons, countFinish_append,
        countFinish_processLine, ih]
      by_cases h : lineEmitsFinish parse l
      · simp [h]
        omega
      · simp [h]

/-- The read loop emits exactly what per-line processing of the complete lines
emits, and reaches the same dispatch state. -/
theorem runChunks_eq_runLines (parse : List Char → Option Json)
    (cs : List (List Char)) : ∀ s : DecFull,
    (runChunks parse s cs).2 =
        (runLines parse s.core (completeLinesFrom s.buffer cs)).2 ∧
      (runChunks parse s cs).1.core =
        (runLines parse s.core (completeLinesFrom s.buffer cs)).1 := by
  induction cs with
  | nil => intro s; simp [runChunks, completeLinesFrom, runLines]
  | cons c cs ih =>
      intro s
      obtain ⟨ho, hc⟩ := ih ⟨(runLines parse s.core (splitNl (s.buffer ++ c)).dropLast).1,
        (splitNl (s.buffer ++ c)).getLastD []⟩
      simp only [runChunks, completeLinesFrom, processChunk] at *
      rw [runLines_append]
      exact ⟨by rw [ho], by rw [hc]⟩

/-- Unfolding `readCredentials` with an empty cache. -/
theorem readCredentials_none (s : CredState) (now : Nat) (d : DiskState)
    (h : s.cachedCredentials = none) :
    readCredentials s now d = readFresh now d s := by
  unfold readCredentials
  rw [h]

/-- Unfolding `readCredentials` on a cache hit. -/
theorem readCredentials_hit (s : CredState) (now : Nat) (d : DiskState)
    (c : ClaudeCodeCredentials) (h : s.cachedCredentials = some c)
    (hw : (now : Int) - (s.lastReadTime : Int) < (CACHE_TTL_MS : Int)) :
    readCredentials s now d = (.ok c, s, false) := by
  unfold readCredentials
  rw [h]
  simp [hw]

/-- Unfolding `readCredentials` on a stale cache. -/
theorem readCredentials_stale (s : CredState) (now : Nat) (d : DiskState)
    (c : ClaudeCodeCredentials) (h : s.cachedCredentials = some c)
    (hw : ¬ (now : Int) - (s.lastReadTime : Int) < (CACHE_TTL_MS : Int)) :
    readCredentials s now d = readFresh now d s := by
  unfold readCredentials
  rw [h]
  simp [hw]

/-- A successful `readCredentials` leaves its result in the cache. -/
theorem readCredentials_ok_cache (s : CredState) (now : Nat) (d : DiskState)
    (c : ClaudeCodeCredentials) (h : (readCredentials s now d).1 = .ok c) :
    (readCredentials s now d).2.1.cachedCredentials = some c := by
  rcases hs : s.cachedCredentials with _ | c0
  · rw [readCredentials_none s now d hs] at h ⊢
    unfold readFresh at h ⊢
    rcases d <;> simp_all
  · by_cases hw : (now : Int) - (s.lastReadTime : Int) < (CACHE_TTL_MS : Int)
    · rw [readCredentials_hit s now d c0 hs hw] at h ⊢
      simp only [Except.ok.injEq] at h
      rw [hs, h]
    · rw [readCredentials_stale s now d c0 hs hw] at h ⊢
      unfold readFresh at h ⊢
      rcases d <;> simp_all

/-! ### Claim theorems: credential manager -/

/-- C1 counterexample: with a concrete record, a successful token response and
a failing persist, the new record is returned but the in-memory cache is NOT
updated to it — the claim that the cache is updated regardless of the persist
outcome is false on this input. -/
theorem refresh_persist_failure_cache_counterexample :
    (refreshToken demoCreds (.success "newAcc" (some "newRef") 3600) 1000000 false
        ⟨some demoCreds, 42⟩).1 =
      .ok (refreshedRecord demoCreds "newAcc" (some "newRef") 3600 1000000) ∧
    (refreshToken demoCreds (.success "newAcc" (some "newRef") 3600) 1000000 false
        ⟨some demoCreds, 42⟩).2.cachedCredentials ≠
      some (refreshedRecord demoCreds "newAcc" (some "newRef") 3600 1000000) :=
  ⟨rfl, by decide⟩

/-- C1 (corrected): for every successful token refresh whose persist to the
backing store fails, `refreshToken` still returns the new record to the caller,
but it leaves the module state — in particular the in-memory credential
cache — unchanged; the cache is updated only when the persist succeeds. -/
theorem refresh_persist_failure_keeps_cache (credentials : ClaudeCodeCredentials)
    (access_token : String) (refresh_token : Option String) (expires_in now : Nat)
    (s : CredState) :
    refreshToken credentials (.success access_token refresh_token expires_in) now false s =
      (.ok (refreshedRecord credentials access_token refresh_token expires_in now), s) := rfl

/-- C3 counterexample: a record expiring far in the future refreshed with a
60-second server lifetime gets an earlier `expiresAt` than its input, so the
unconditional "strictly greater `expiresAt`" part of the claim is false
(scopes and organization id are preserved even here). -/
theorem refresh_expiry_counterexample :
    (refreshToken farCreds (.success "a2" none 60) 1000 true initCredState).1 =
      .ok (refreshedRecord farCreds "a2" none 60 1000) ∧
    (refreshedRecord farCreds "a2" none 60 1000).claudeAiOauth.scopes =
      farCreds.claudeAiOauth.scopes ∧
    (refreshedRecord farCreds "a2" none 60 1000).organizationUuid =
      farCreds.organizationUuid ∧
    ¬ farCreds.claudeAiOauth.expiresAt <
        (refreshedRecord farCreds "a2" none 60 1000).claudeAiOauth.expiresAt :=
  ⟨rfl, rfl, rfl, by decide⟩

/-- C3 (corrected): on every successful response, for every record, the record
returned by `refreshToken` keeps the input's scopes and organization identifier
and has `expiresAt = now + expires_in * 1000`; that expiry is strictly greater
than the input's whenever the input token has already lapsed (`expiresAt ≤
now`) and the server reports a positive lifetime — but not unconditionally. -/
theorem refresh_preserves_scopes_org (credentials : ClaudeCodeCredentials)
    (access_token : String) (refresh_token : Option String) (expires_in now : Nat)
    (persistOk : Bool) (s : CredState) :
    (refreshToken credentials (.success access_token refresh_token expires_in) now persistOk s).1 =
      .ok (refreshedRecord credentials access_token refresh_token expires_in now) ∧
    (refreshedRecord credentials access_token refresh_token expires_in now).claudeAiOauth.scopes =
      credentials.claudeAiOauth.scopes ∧
    (refreshedRecord credentials access_token refresh_token expires_in now).organizationUuid =
      credentials.organizationUuid ∧
    (refreshedRecord credentials access_token refresh_token expires_in now).claudeAiOauth.expiresAt =
      now + expires_in * 1000 ∧
    (credentials.claudeAiOauth.expiresAt ≤ now → 1 ≤ expires_in →
      credentials.claudeAiOauth.expiresAt <
        (refreshedRecord credentials access_token refresh_token expires_in now).claudeAiOauth.expiresAt) := by
  refine ⟨by cases persistOk <;> rfl, rfl, rfl, rfl, ?_⟩
  intro hexp hpos
  show credentials.claudeAiOauth.expiresAt < now + expires_in * 1000
  omega

/-- C3 witness: the corrected theorem at a concrete lapsed record, with the
strict-increase implication discharged there. -/
theorem refresh_preserves_scopes_org_witness :
    demoCreds.claudeAiOauth.expiresAt ≤ 1000 ∧ 1 ≤ 60 ∧
    (refreshToken demoCreds (.success "a2" none 60) 1000 true initCredState).1 =
      .ok (refreshedRecord demoCreds "a2" none 60 1000) ∧
    (refreshedRecord demoCreds "a2" none 60 1000).claudeAiOauth.scopes =
      demoCreds.claudeAiOauth.scopes ∧
    (refreshedRecord demoCreds "a2" none 60 1000).organizationUuid =
      demoCreds.organizationUuid ∧
    (refreshedRecord demoCreds "a2" none 60 1000).claudeAiOauth.expiresAt = 1000 + 60 * 1000 ∧
    demoCreds.claudeAiOauth.expiresAt <
      (refreshedRecord demoCreds "a2" none 60 1000).claudeAiOauth.expiresAt :=
  ⟨by decide, by decide,
   (refresh_preserves_scopes_org demoCreds "a2" none 60 1000 true initCredState).1,
   (refresh_preserves_scopes_org demoCreds "a2" none 60 1000 true initCredState).2.1,
   (refresh_preserves_scopes_org demoCreds "a2" none 60 1000 true initCredState).2.2.1,
   (refresh_preserves_scopes_org demoCreds "a2" none 60 1000 true initCredState).2.2.2.1,
   (refresh_preserves_scopes_org demoCreds "a2" none 60 1000 true initCredState).2.2.2.2
     (by decide) (by decide)⟩

/-- C6 (confirmed): on a non-2xx token-endpoint response, `refreshToken` fails
with an error carrying the response status and body, and the module state —
including the in-memory credential cache — is left exactly as it was. -/
theorem refresh_failure_propagates (credentials : ClaudeCodeCredentials)
    (status : Nat) (body : String) (now : Nat) (persistOk : Bool) (s : CredState) :
    refreshToken credentials (.failure status body) now persistOk s =
      (.error (status, body), s) := rfl

/-- C9 (confirmed): a successful response with an absent or empty
`refresh_token` leaves the record's refresh token unchanged; a non-empty
response token replaces it. -/
theorem refresh_token_rotation (credentials : ClaudeCodeCredentials)
    (access_token : String) (expires_in now : Nat) (persistOk : Bool) (s : CredState) :
    (refreshToken credentials (.success access_token none expires_in) now persistOk s).1 =
      .ok (refreshedRecord credentials access_token none expires_in now) ∧
    (refreshedRecord credentials access_token none expires_in now).claudeAiOauth.refreshToken =
      credentials.claudeAiOauth.refreshToken ∧
    (refreshedRecord credentials access_token (some "") expires_in now).claudeAiOauth.refreshToken =
      credentials.claudeAiOauth.refreshToken ∧
    ∀ r : String, r ≠ "" →
      (refreshedRecord credentials access_token (some r) expires_in now).claudeAiOauth.refreshToken = r := by
  refine ⟨by cases persistOk <;> rfl, rfl, by simp [refreshedRecord], ?_⟩
  intro r hr
  simp [refreshedRecord, hr]

/-- C9 witness: the rotation cases at a concrete record. -/
theorem refresh_token_rotation_witness :
    ("r2" : String) ≠ "" ∧
    (refreshedRecord demoCreds "a" (some "r2") 60 1000).claudeAiOauth.refreshToken = "r2" ∧
    (refreshedRecord demoCreds "a" none 60 1000).claudeAiOauth.refreshToken =
      demoCreds.claudeAiOauth.refreshToken :=
  ⟨by decide,
   (refresh_token_rotation demoCreds "a" 60 1000 true initCredState).2.2.2 "r2" (by decide),
   (refresh_token_rotation demoCreds "a" 60 1000 true initCredState).2.1⟩

/-- C8 (confirmed): a second `readCredentials` call within the 30-second cache
window of the first call's read returns the same record by value, performs no
disk read (whatever the disk now holds) and leaves the state unchanged; a call
with an empty cache or outside the window always touches the backing store and,
when the store holds a record, re-caches it. -/
theorem readCredentials_cache_window (s : CredState) (t1 t2 : Nat)
    (d d' : DiskState) (c1 : ClaudeCodeCredentials) :
    ((readCredentials s t1 d).1 = .ok c1 →
      (t2 : Int) - ((readCredentials s t1 d).2.1.lastReadTime : Int) < (CACHE_TTL_MS : Int) →
      readCredentials (readCredentials s t1 d).2.1 t2 d' =
        (.ok c1, (readCredentials s t1 d).2.1, false)) ∧
    ((s.cachedCredentials = none ∨ (CACHE_TTL_MS : Int) ≤ (t1 : Int) - (s.lastReadTime : Int)) →
      (readCredentials s t1 d).2.2 = true ∧
      ∀ c, d = .good c →
        (readCredentials s t1 d).2.1 = ⟨some c, t1⟩ ∧ (readCredentials s t1 d).1 = .ok c) := by
  constructor
  · intro h1 h2
    exact readCredentials_hit _ t2 d' c1 (readCredentials_ok_cache s t1 d c1 h1) h2
  · intro h
    have hfresh : readCredentials s t1 d = readFresh t1 d s := by
      rcases hs : s.cachedCredentials with _ | c0
      · exact readCredentials_none s t1 d hs
      · refine readCredentials_stale s t1 d c0 hs ?_
        rcases h with h | h
        · rw [hs] at h; cases h
        · omega
    rw [hfresh]
    unfold readFresh
    rcases d with _ | _ | c
    · exact ⟨rfl, fun c hc => by cases hc⟩
    · exact ⟨rfl, fun c hc => by cases hc⟩
    · exact ⟨rfl, fun c' hc => by cases hc; exact ⟨rfl, rfl⟩⟩

/-- C8 witness: first call with empty cache reads the disk and caches; a
second call 10 ms later returns the same record with no disk read, even with
the file gone. -/
theorem readCredentials_cache_window_witness :
    (readCredentials initCredState 0 (.good demoCreds)).1 = .ok demoCreds ∧
    (10 : Int) - ((readCredentials initCredState 0 (.good demoCreds)).2.1.lastReadTime : Int) <
      (CACHE_TTL_MS : Int) ∧
    readCredentials (readCredentials initCredState 0 (.good demoCreds)).2.1 10 .missing =
      (.ok demoCreds, (readCredentials initCredState 0 (.good demoCreds)).2.1, false) ∧
    initCredState.cachedCredentials = none ∧
    (readCredentials initCredState 0 (.good demoCreds)).2.2 = true :=
  ⟨rfl, by decide,
   (readCredentials_cache_window initCredState 0 10 (.good demoCreds) .missing demoCreds).1
     rfl (by decide),
   rfl,
   ((readCredentials_cache_window initCredState 0 10 (.good demoCreds) .missing demoCreds).2
     (Or.inl rfl)).1⟩

/-! ### Claim theorems: stream decoder -/

/-- C4 (confirmed): the tool-use frame sequence start/delta/delta/stop makes
the decoder emit exactly one `tool-call` event, with id `t1`, name `weather`
and the fully accumulated argument string, and nothing is emitted before the
`content_block_stop` frame. -/
theorem tool_call_accumulation :
    (runEvents initCore [fToolStart, fToolArgA, fToolArgB, fBlockStop]).2 =
      [.toolCall "t1" "weather" "\x7b\"loc\":\"NYC\"\x7d"] ∧
    (runEvents initCore [fToolStart, fToolArgA, fToolArgB]).2 = [] :=
  ⟨rfl, rfl⟩

/-- C5 (confirmed): the frame sequence message_start / text "He" / text "llo" /
message_delta decodes to exactly `text-delta "He"`, `text-delta "llo"`,
`finish stop 10 3`, in that order; in general the events of a frame sequence
are those of its frames in input order (the run is compositional under
concatenation). -/
theorem stream_order_text_finish :
    (runEvents initCore [fMsgStart10, fTextHe, fTextLlo, fMsgDelta3]).2 =
      [.textDelta "He", .textDelta "llo", .finish .stop 10 3] ∧
    ∀ (s : DecCore) (a b : List Json),
      runEvents s (a ++ b) =
        ((runEvents (runEvents s a).1 b).1,
         (runEvents s a).2 ++ (runEvents (runEvents s a).1 b).2) :=
  ⟨rfl, runEvents_append⟩

/-- C2 counterexample: a byte stream holding two `message_delta` frames makes
the decoder emit two `finish` events, so "at most one finish per stream" is
false on this input. -/
theorem double_message_delta_counterexample :
    countFinish (streamTransformer parseDemo
        [dataMarker ++ pMsgDelta ++ ['\n'] ++ dataMarker ++ pMsgDelta ++ ['\n']]) = 2 ∧
    ¬ countFinish (streamTransformer parseDemo
        [dataMarker ++ pMsgDelta ++ ['\n'] ++ dataMarker ++ pMsgDelta ++ ['\n']]) ≤ 1 :=
  ⟨rfl, by decide⟩

/-- C2 (corrected): the decoder emits one `finish` event for each complete
`data: ` line whose payload parses to a `message_delta` frame — no more and no
fewer — so a stream is emitted at most one `finish` exactly when it carries at
most one such frame; the source never suppresses a duplicate. -/
theorem finish_count_eq_message_delta_lines (parse : List Char → Option Json)
    (chunks : List (List Char)) :
    countFinish (streamTransformer parse chunks) =
      (completeLinesFrom [] chunks).countP (lineEmitsFinish parse) := by
  unfold streamTransformer
  rw [(runChunks_eq_runLines parse chunks initFull).1]
  simpa [initFull] using
    countFinish_runLines parse (completeLinesFrom [] chunks) initCore

/-- C7 (confirmed): inserting a `data: ` line whose payload fails to parse
between any two line sequences leaves the decoder's output and state exactly
as without it. -/
theorem malformed_line_skipped (parse : List Char → Option Json) (s : DecCore)
    (ls1 ls2 : List (List Char)) (payload : List Char) (h : parse payload = none) :
    runLines parse s (ls1 ++ (dataMarker ++ payload) :: ls2) =
      runLines parse s (ls1 ++ ls2) := by
  induction ls1 generalizing s with
  | nil =>
      simp only [List.nil_append, runLines]
      rw [processLine_parse_none parse s payload h]
      simp
  | cons l ls ih =>
      simp only [List.cons_append, runLines, List.append_eq]
      rw [ih]

/-- C7 witness: a `data: not-json` line between a text frame and a
message_delta frame changes nothing. -/
theorem malformed_line_skipped_witness :
    parseDemo ("not-json".toList) = none ∧
    runLines parseDemo initCore
        [dataMarker ++ pTextHe, dataMarker ++ "not-json".toList, dataMarker ++ pMsgDelta] =
      runLines parseDemo initCore [dataMarker ++ pTextHe, dataMarker ++ pMsgDelta] :=
  ⟨rfl,
   malformed_line_skipped parseDemo initCore [dataMarker ++ pTextHe]
     [dataMarker ++ pMsgDelta] ("not-json".toList) rfl⟩

/-- C10 (confirmed): appending a final chunk that contains no newline — for
example an unterminated `data: <json>` frame — never changes the emitted
sequence: the trailing fragment stays in the buffer and is discarded at stream
end. -/
theorem trailing_fragment_discarded (parse : List Char → Option Json)
    (chunks : List (List Char)) (c : List Char) (h : '\n' ∉ c) :
    streamTransformer parse (chunks ++ [c]) = streamTransformer parse chunks := by
  unfold streamTransformer
  rw [runChunks_append]
  have hb : '\n' ∉ (runChunks parse initFull chunks).1.buffer :=
    runChunks_buffer_not_nl parse chunks initFull (by simp [initFull])
  simp only [runChunks]
  rw [processChunk_no_nl parse _ c hb h]
  simp

/-- C10 witness: an unterminated `data: ` message_delta frame at stream end is
dropped — the output equals that of the stream without it. -/
theorem trailing_fragment_discarded_witness :
    '\n' ∉ dataMarker ++ pMsgDelta ∧
    streamTransformer parseDemo
        ([dataMarker ++ pTextHe ++ ['\n']] ++ [dataMarker ++ pMsgDelta]) =
      streamTransformer parseDemo [dataMarker ++ pTextHe ++ ['\n']] :=
  ⟨by decide,
   trailing_fragment_discarded parseDemo [dataMarker ++ pTextHe ++ ['\n']]
     (dataMarker ++ pMsgDelta) (by decide)⟩
